import Mathlib

/-!
Verification development for the TVM packed-function core
(`include/tvm/runtime/packed_func.h`): the type-erased calling convention,
its tagged value representation, the type-descriptor text codec, the
owning return slot (`TVMRetValue`) and the argument list (`TVMArgs`).

Shallow embedding conventions:
* the C ABI type codes (`TVMTypeCode`, declared in `c_runtime_api.h`,
  outside this fragment) are an inductive type — only distinctness of the
  enum members matters to the embedded code;
* fatal checks (`CHECK`, `LOG(FATAL)`) are modelled by `Option`: `none`
  is a fatal abort, `some` a normal result;
* heap boxes (`new T(v)` / `delete`) are modelled by an explicit `World`
  holding an association list of live boxes, a fresh-address counter and
  a trace of released addresses (a double `delete` shows up as a repeated
  address in the trace);
* the `TVMValue` union is modelled as a record; no embedded operation
  depends on aliasing between union members.
-/

namespace TVM

/-- Modelled from the spec and `c_runtime_api.h` (not part of this
fragment): the closed enumeration `TVMTypeCode` of type discriminants. -/
inductive TypeCode where
  | kInt
  | kUInt
  | kFloat
  | kHandle
  | kNull
  | kTVMType
  | kArrayHandle
  | kNodeHandle
  | kFuncHandle
  | kStr
  | kBytes
  | kModuleHandle
deriving DecidableEq, Repr

open TypeCode

/-- Modelled from the spec and `c_runtime_api.h`: the element-type
descriptor `TVMType { uint8_t code; uint8_t bits; uint16_t lanes; }`.
The 8/16-bit widths appear as explicit `% 256` / `% 65536` truncation at
the `static_cast` sites in `String2TVMType`. -/
structure TVMType where
  code : TypeCode
  bits : Nat
  lanes : Nat
deriving DecidableEq, Repr

/-- Model of `TypeCode2Str` (packed_func.h): the switch mapping a type
code to its name.  The switch has no `kUInt` case, so `kUInt` reaches the
`LOG(FATAL) "unknown type_code"` default, modelled as `none`. -/
def TypeCode2Str : TypeCode → Option (List Char)
  | kInt => some "int".toList
  | kFloat => some "float".toList
  | kStr => some "str".toList
  | kBytes => some "bytes".toList
  | kHandle => some "handle".toList
  | kNull => some "NULL".toList
  | kNodeHandle => some "NodeHandle".toList
  | kArrayHandle => some "ArrayHandle".toList
  | kTVMType => some "TVMType".toList
  | kFuncHandle => some "FunctionHandle".toList
  | kModuleHandle => some "ModuleHandle".toList
  | kUInt => none

/-- Model of `operator<<(std::ostream&, TVMType)` composed with
`TVMType2String`: prints the code name; for `kHandle` returns immediately
(omitting both the bits and the lane suffix); otherwise prints `bits`,
then `x<lanes>` when `lanes != 1`. -/
def TVMType2String (t : TVMType) : Option (List Char) :=
  match TypeCode2Str t.code with
  | none => none
  | some name =>
    if t.code = kHandle then some name
    else
      let withBits := name ++ Nat.toDigits 10 t.bits
      if t.lanes ≠ 1 then some (withBits ++ 'x' :: Nat.toDigits 10 t.lanes)
      else some withBits

/-- Numeric value of a nonempty digit run (the conversion `sscanf`'s `%u`
performs on the digits it consumed). -/
def digitsToNat (ds : List Char) : Nat :=
  ds.foldl (fun a c => a * 10 + (c.toNat - 48)) 0

/-- Model of `sscanf(scan, "%ux%u", &bits, &lanes)` on the suffix after
the type name: each `%u` consumes a maximal digit run and assigns only when at
least one digit was read; the literal `x` must follow the first number
for the second to be scanned.  (Whitespace/sign forms of `%u` are not
exercised by any input this codec produces and are elided.) -/
def sscanfUxU (scan : List Char) (bits lanes : Nat) : Nat × Nat :=
  let ds := scan.takeWhile Char.isDigit
  if ds = [] then (bits, lanes)
  else
    let bits' := digitsToNat ds
    match scan.dropWhile Char.isDigit with
    | 'x' :: rest =>
      let ds2 := rest.takeWhile Char.isDigit
      if ds2 = [] then (bits', lanes) else (bits', digitsToNat ds2)
    | _ => (bits', lanes)

/-- Model of `String2TVMType` (packed_func.h): defaults `bits = 32`, `lanes = 1`;
compares `s.substr(0,3)` with `"int"`, `s.substr(0,4)` with `"uint"`,
`s.substr(0,5)` with `"float"`, `s.substr(0,6)` with `"handle"` in that
order (`substr` clamps, matching `List.take`); `handle` resets the bits
default to 64; an unmatched string is `LOG(FATAL)` (`none`); the
remainder is scanned by `sscanf("%ux%u")` and the results truncated by
`static_cast<uint8_t>` / `static_cast<uint16_t>`. -/
def String2TVMType (s : List Char) : Option TVMType :=
  let finish := fun (code : TypeCode) (bits0 lanes0 : Nat) (scan : List Char) =>
    some (TVMType.mk code ((sscanfUxU scan bits0 lanes0).1 % 256)
      ((sscanfUxU scan bits0 lanes0).2 % 65536))
  if s.take 3 = "int".toList then finish kInt 32 1 (s.drop 3)
  else if s.take 4 = "uint".toList then finish kUInt 32 1 (s.drop 4)
  else if s.take 5 = "float".toList then finish kFloat 32 1 (s.drop 5)
  else if s.take 6 = "handle".toList then finish kHandle 64 1 (s.drop 6)
  else none

/-- Format a descriptor and parse the text back (the spec's
`Parse(Format(d))`); `none` when either direction hits a fatal check. -/
def roundTrip (t : TVMType) : Option TVMType :=
  (TVMType2String t).bind String2TVMType

/-- Modelled from the spec and `c_runtime_api.h`: the fixed-size union
`TVMValue { int64_t v_int64; double v_float64; void* v_handle;
const char* v_str; TVMType v_type; }`.  Modelled as a record (no claim
depends on aliasing between members); pointers are `Nat` addresses and
the double member is kept as opaque bits, never inspected here. -/
structure TVMValueU where
  v_int64 : Int := 0
  v_float64 : Int := 0
  v_handle : Nat := 0
  v_str : Nat := 0
  v_type : TVMType := ⟨kInt, 32, 1⟩
deriving DecidableEq, Repr

/-- State of `TVMPODValue_` (the base of both `TVMArgValue` and
`TVMRetValue`): the union plus the type-code discriminant.  The default
constructor sets `type_code_ = kNull`. -/
structure TVMPODValue_ where
  value_ : TVMValueU := {}
  type_code_ : TypeCode := kNull
deriving DecidableEq, Repr

/-- An argument view shares the `TVMPODValue_` state (it only adds
behaviour). -/
abbrev TVMArgValue := TVMPODValue_

/-- A return slot shares the `TVMPODValue_` state (it only adds
behaviour and ownership discipline, modelled through `World`). -/
abbrev TVMRetValue := TVMPODValue_

/-- The size of a 32-bit reduction window used by `static_cast<int>`:
reduce a 64-bit value into `[-2^31, 2^31)` (two's-complement
truncation). -/
def wrap32 (v : Int) : Int :=
  (v + 2147483648) % 4294967296 - 2147483648

/-- Model of `TVMPODValue_::operator int()`: checks the tag against
`kInt`, then `CHECK_LE(value_.v_int64, std::numeric_limits<int>::max())`
— only the upper bound — then `static_cast<int>(value_.v_int64)`. -/
def TVMPODValue_.toCInt (r : TVMPODValue_) : Option Int :=
  if r.type_code_ = kInt then
    if r.value_.v_int64 ≤ 2147483647 then some (wrap32 r.value_.v_int64)
    else none
  else none

/-- Model of `TVMPODValue_::operator uint64_t()`: checks the tag against
`kInt` and returns `value_.v_int64`; the implicit `int64_t → uint64_t`
conversion reduces modulo `2^64` (no sign or range check). -/
def TVMPODValue_.toCUInt64 (r : TVMPODValue_) : Option Int :=
  if r.type_code_ = kInt then some (r.value_.v_int64 % 18446744073709551616)
  else none

/-- Contents of one heap box (`new T(v)`): which C++ type `T` was
allocated and its value.  `PackedFunc` and `Module` are opaque to this
core and are modelled by identifiers, as is the pointee of a
`std::shared_ptr<Node>`. -/
inductive BoxContent where
  | str (s : String)
  | func (f : Nat)
  | mod (m : Nat)
  | node (n : Nat)
deriving DecidableEq, Repr

/-- Explicit memory state threaded through the owning-slot operations:
live heap boxes (address, content), the next fresh address, the trace of
`delete`d addresses (a double release shows up as a repeated address),
plus read-only C strings and byte arrays referenced by argument views. -/
structure World where
  boxes : List (Nat × BoxContent) := []
  next : Nat := 0
  released : List Nat := []
  cstrs : List (Nat × String) := []
  byteArrs : List (Nat × String) := []
deriving DecidableEq, Repr

def World.lookupBox (w : World) (a : Nat) : Option BoxContent :=
  (w.boxes.find? (fun p => p.1 = a)).map Prod.snd

/-- Allocation `new T(v)`: returns the fresh address and the grown
world. -/
def World.alloc (w : World) (c : BoxContent) : Nat × World :=
  (w.next, { w with boxes := w.boxes ++ [(w.next, c)], next := w.next + 1 })

/-- Release `delete p`: removes the box and records the address in the
release trace (recorded even if the box is already gone, which is how a
double free becomes observable). -/
def World.free (w : World) (a : Nat) : World :=
  { w with boxes := w.boxes.filter (fun p => p.1 ≠ a),
           released := w.released ++ [a] }

/-- In-place assignment through a pointer, `*static_cast<T*>(p) = v`. -/
def World.store (w : World) (a : Nat) (c : BoxContent) : World :=
  { w with boxes := w.boxes.map (fun p => if p.1 = a then (a, c) else p) }

def World.lookupCStr (w : World) (a : Nat) : Option String :=
  (w.cstrs.find? (fun p => p.1 = a)).map Prod.snd

def World.lookupBytes (w : World) (a : Nat) : Option String :=
  (w.byteArrs.find? (fun p => p.1 = a)).map Prod.snd

/-- Model of `TVMRetValue::Clear()`: early return on `kNull`; otherwise
`delete` the box for the four complex tags and force the discriminant to
`kNull`. -/
def TVMRetValue.Clear (r : TVMRetValue) (w : World) : TVMRetValue × World :=
  if r.type_code_ = kNull then (r, w)
  else
    let w' :=
      match r.type_code_ with
      | kStr | kFuncHandle | kModuleHandle | kNodeHandle =>
        World.free w r.value_.v_handle
      | _ => w
    ({ r with type_code_ := kNull }, w')

/-- The destructor `~TVMRetValue()` calls `Clear()`; only the memory
effect remains. -/
def TVMRetValue.destruct (r : TVMRetValue) (w : World) : World :=
  (TVMRetValue.Clear r w).2

/-- Model of `TVMRetValue::SwitchToPOD(int type_code)`: clear and retag
only when the discriminant changes. -/
def TVMRetValue.SwitchToPOD (r : TVMRetValue) (w : World) (tc : TypeCode) :
    TVMRetValue × World :=
  if r.type_code_ ≠ tc then
    let rw := TVMRetValue.Clear r w
    ({ rw.1 with type_code_ := tc }, rw.2)
  else (r, w)

/-- Model of `TVMRetValue::SwitchToClass<T>(int type_code, T v)`: when
the discriminant differs, clear, retag and allocate a fresh box
`new T(v)` into `v_handle`; when it matches, overwrite the existing box
in place through the stored pointer. -/
def TVMRetValue.SwitchToClass (r : TVMRetValue) (w : World) (tc : TypeCode)
    (v : BoxContent) : TVMRetValue × World :=
  if r.type_code_ ≠ tc then
    let rw := TVMRetValue.Clear r w
    let aw := World.alloc rw.2 v
    ({ rw.1 with type_code_ := tc,
                 value_ := { rw.1.value_ with v_handle := aw.1 } }, aw.2)
  else (r, World.store w r.value_.v_handle v)

/-- Model of `TVMRetValue::operator=(std::string)`:
`SwitchToClass<std::string>(kStr, value)`. -/
def TVMRetValue.assignString (r : TVMRetValue) (w : World) (s : String) :
    TVMRetValue × World :=
  TVMRetValue.SwitchToClass r w kStr (.str s)

/-- Model of `TVMRetValue::operator=(PackedFunc)`:
`SwitchToClass<PackedFunc>(kFuncHandle, f)`. -/
def TVMRetValue.assignPackedFunc (r : TVMRetValue) (w : World) (f : Nat) :
    TVMRetValue × World :=
  TVMRetValue.SwitchToClass r w kFuncHandle (.func f)

/-- Model of `TVMRetValue::operator=(Module)`:
`SwitchToClass<Module>(kModuleHandle, m)`. -/
def TVMRetValue.assignModule (r : TVMRetValue) (w : World) (m : Nat) :
    TVMRetValue × World :=
  TVMRetValue.SwitchToClass r w kModuleHandle (.mod m)

/-- Model of the move constructor `TVMRetValue(TVMRetValue&& other)` :
it initializes the base with `(other.value_, other.type_code_)` and its
body is empty, so the moved-from source is returned UNCHANGED — its
discriminant is not reset to `kNull`.  Result: (new slot, source after
the move). -/
def TVMRetValue.moveCtor (other : TVMRetValue) : TVMRetValue × TVMRetValue :=
  (⟨other.value_, other.type_code_⟩, other)

/-- Model of `TVMRetValue::operator=(TVMRetValue&& other)`: clear self,
copy the union and discriminant, then reset the source's discriminant to
`kNull`.  Result: (self after assignment, source after the move, world). -/
def TVMRetValue.moveAssign (r other : TVMRetValue) (w : World) :
    TVMRetValue × TVMRetValue × World :=
  let rw := TVMRetValue.Clear r w
  ({ rw.1 with value_ := other.value_, type_code_ := other.type_code_ },
   { other with type_code_ := kNull }, rw.2)

/-- Model of `TVMRetValue::MoveToCHost(TVMValue*, int*)`:
`CHECK(type_code_ != kStr)` (fatal on a string payload), then copy the
union and tag to the raw ABI outputs and reset the slot's discriminant
to `kNull`.  Result: (output value, output type code, slot after). -/
def TVMRetValue.MoveToCHost (r : TVMRetValue) :
    Option (TVMValueU × TypeCode × TVMRetValue) :=
  if r.type_code_ = kStr then none
  else some (r.value_, r.type_code_, { r with type_code_ := kNull })

/-- Model of `operator PackedFunc()` (identical on `TVMArgValue` and
`TVMRetValue`): `TVM_CHECK_TYPE_CODE(type_code_, kFuncHandle)` then
`*ptr<PackedFunc>()`.  Reading a box that does not actually hold a
`PackedFunc` is undefined behaviour, modelled as `none`. -/
def toPackedFunc (w : World) (s : TVMPODValue_) : Option Nat :=
  if s.type_code_ = kFuncHandle then
    match World.lookupBox w s.value_.v_handle with
    | some (.func f) => some f
    | _ => none
  else none

/-- Model of `operator Module()` (identical on `TVMArgValue` and
`TVMRetValue`): `TVM_CHECK_TYPE_CODE(type_code_, kModuleHandle)` then
`*ptr<Module>()`. -/
def toModule (w : World) (s : TVMPODValue_) : Option Nat :=
  if s.type_code_ = kModuleHandle then
    match World.lookupBox w s.value_.v_handle with
    | some (.mod m) => some m
    | _ => none
  else none

/-- Model of `TVMArgValue::operator std::string()`: `kTVMType` formats
the descriptor; `kBytes` copies the length-prefixed buffer; otherwise the
tag check against `kStr` and a copy of the C string at `v_str`. -/
def TVMArgValue.toStdString (w : World) (s : TVMArgValue) : Option String :=
  if s.type_code_ = kTVMType then
    (TVMType2String s.value_.v_type).map (fun l => String.mk l)
  else if s.type_code_ = kBytes then World.lookupBytes w s.value_.v_handle
  else if s.type_code_ = kStr then World.lookupCStr w s.value_.v_str
  else none

/-- Model of `TVMRetValue::operator std::string()`: `kTVMType` formats
the descriptor; otherwise the tag check against `kStr` and
`*ptr<std::string>()`. -/
def TVMRetValue.toStdString (w : World) (s : TVMRetValue) : Option String :=
  if s.type_code_ = kTVMType then
    (TVMType2String s.value_.v_type).map (fun l => String.mk l)
  else if s.type_code_ = kStr then
    match World.lookupBox w s.value_.v_handle with
    | some (.str str) => some str
    | _ => none
  else none

/-- Which concrete class `TVMRetValue::Assign`'s template parameter is
instantiated at (the two sources differ only in their
`operator std::string`). -/
inductive SrcKind where
  | fromArgValue
  | fromRetValue
deriving DecidableEq, Repr

def srcToString (k : SrcKind) (w : World) (s : TVMPODValue_) : Option String :=
  match k with
  | .fromArgValue => TVMArgValue.toStdString w s
  | .fromRetValue => TVMRetValue.toStdString w s

/-- Model of `TVMRetValue::Assign<T>(const T& other)` (used by the copy
constructor, copy assignment and assignment from `TVMArgValue`): switch
on the source's type code.  `kStr`/`kBytes` convert the source to
`std::string` and box it under `kStr`.  `kFuncHandle` boxes a copy of
the source's `PackedFunc`.  `kModuleHandle` calls
`SwitchToClass<PackedFunc>(kModuleHandle, other)`: the argument is
converted through `operator PackedFunc()`, whose tag check expects
`kFuncHandle`, so the conversion is a fatal tag mismatch (`none`) before
any allocation.  `kNodeHandle` copies the `shared_ptr<Node>` box; any
other code is a plain POD copy through `SwitchToPOD`. -/
def TVMRetValue.Assign (r : TVMRetValue) (w : World) (other : TVMPODValue_)
    (k : SrcKind) : Option (TVMRetValue × World) :=
  match other.type_code_ with
  | kStr | kBytes =>
    (srcToString k w other).map
      (fun s => TVMRetValue.SwitchToClass r w kStr (.str s))
  | kFuncHandle =>
    (toPackedFunc w other).map
      (fun f => TVMRetValue.SwitchToClass r w kFuncHandle (.func f))
  | kModuleHandle =>
    (toPackedFunc w other).map
      (fun f => TVMRetValue.SwitchToClass r w kModuleHandle (.func f))
  | kNodeHandle =>
    match World.lookupBox w other.value_.v_handle with
    | some (.node n) =>
      some (TVMRetValue.SwitchToClass r w kNodeHandle (.node n))
    | _ => none
  | c =>
    let rw := TVMRetValue.SwitchToPOD r w c
    some ({ rw.1 with value_ := other.value_ }, rw.2)

/-- Model of `TVMArgs`: borrowed arrays of values and type codes plus a
count.  The arrays are modelled as total functions over `Int` offsets so
that an out-of-bounds pointer read is expressible. -/
structure TVMArgs where
  values : Int → TVMValueU
  type_codes : Int → TypeCode
  num_args : Int

def TVMArgs.size (a : TVMArgs) : Int := a.num_args

/-- Model of `TVMArgs::operator[](int i)`: `CHECK_LT(i, num_args)` —
fatal (`none`) when the check fails — then a view over `values[i]` with
tag `type_codes[i]`.  There is no lower-bound check. -/
def TVMArgs.getArg (a : TVMArgs) (i : Int) : Option TVMArgValue :=
  if i < a.num_args then some ⟨a.values i, a.type_codes i⟩ else none

/-- The list of the descriptor codes whose claimed round-trip actually
holds on the code: `kInt` and `kFloat` over all claimed bit-widths and
lane counts, plus the scalar 64-bit handle. -/
def roundTripDomain : List TVMType :=
  ([kInt, kFloat].flatMap fun c =>
    [1, 8, 16, 32, 64].flatMap fun b =>
      [1, 4, 8].map fun l => TVMType.mk c b l) ++ [⟨kHandle, 64, 1⟩]

/-- Concrete two-element argument list: `values[j].v_int64 = j`,
every tag `kInt`. -/
def twoIntArgs : TVMArgs :=
  ⟨fun j => { v_int64 := j }, fun _ => kInt, 2⟩

/-- Concrete slot holding the POD integer 5. -/
def intSlot5 : TVMRetValue :=
  { value_ := { v_int64 := 5 }, type_code_ := kInt }

/-- Concrete slot whose `v_handle` points at box 0, tagged `kStr`. -/
def strSlot0 : TVMRetValue :=
  { value_ := { v_handle := 0 }, type_code_ := kStr }

/-- World owning exactly the string box 0. -/
def strWorld0 : World := { boxes := [(0, .str "a")], next := 1 }

/-- Source slot (either kind) whose `v_handle` points at box 0, tagged
`kModuleHandle`, in a world where box 0 holds a Module. -/
def modSrc0 : TVMPODValue_ := { value_ := { v_handle := 0 }, type_code_ := kModuleHandle }

def modWorld0 : World := { boxes := [(0, .mod 7)], next := 1 }

/-- Source slot whose `v_handle` points at box 0, tagged `kFuncHandle`,
in a world where box 0 holds a PackedFunc. -/
def funcSrc0 : TVMPODValue_ := { value_ := { v_handle := 0 }, type_code_ := kFuncHandle }

def funcWorld0 : World := { boxes := [(0, .func 7)], next := 1 }

/-- Storing through a pointer that is live in the heap updates exactly
that box (list form). -/
theorem find?_map_store (l : List (Nat × BoxContent)) (a : Nat) (c : BoxContent)
    (h : (l.find? (fun p => p.1 = a)).isSome = true) :
    (l.map (fun p => if p.1 = a then (a, c) else p)).find? (fun p => p.1 = a)
      = some (a, c) := by
  induction l with
  | nil => simp at h
  | cons x xs ih =>
    by_cases hx : x.1 = a
    · simp [hx]
    · rw [List.find?_cons_of_neg _ (by simp [hx])] at h
      rw [List.map_cons, if_neg hx, List.find?_cons_of_neg _ (by simp [hx])]
      exact ih h

/-- A fresh address larger than every live key is found exactly at the
appended box (list form). -/
theorem find?_append_fresh (l : List (Nat × BoxContent)) (n : Nat) (c : BoxContent)
    (h : ∀ p ∈ l, p.1 < n) :
    ((l ++ [(n, c)]).find? (fun p => p.1 = n)) = some (n, c) := by
  induction l with
  | nil => simp
  | cons x xs ih =>
    have hx : x.1 ≠ n := Nat.ne_of_lt (h x (by simp))
    rw [List.cons_append, List.find?_cons_of_neg _ (by simp [hx])]
    exact ih fun p hp => h p (by simp [hp])

theorem World.lookupBox_store_self (w : World) (a : Nat) (c : BoxContent)
    (h : (World.lookupBox w a).isSome = true) :
    World.lookupBox (World.store w a c) a = some c := by
  unfold World.lookupBox at h ⊢
  unfold World.store
  have h2 : (w.boxes.find? (fun p => p.1 = a)).isSome = true := by
    cases hf : w.boxes.find? (fun p => p.1 = a) <;> simp [hf] at h ⊢
  simp [find?_map_store w.boxes a c h2]

theorem World.lookupBox_alloc_fresh (w : World) (c : BoxContent)
    (hwf : ∀ p ∈ w.boxes, p.1 < w.next) :
    World.lookupBox (World.alloc w c).2 (World.alloc w c).1 = some c := by
  unfold World.lookupBox World.alloc
  simp [find?_append_fresh w.boxes w.next c hwf]

/-- Clearing never changes the allocation counter. -/
theorem clear_next (r : TVMRetValue) (w : World) :
    ((TVMRetValue.Clear r w).2).next = w.next := by
  unfold TVMRetValue.Clear
  cases hr : r.type_code_ <;> simp [hr, World.free]

/-- Clearing only removes boxes, so every surviving key keeps its
bound. -/
theorem clear_wf (r : TVMRetValue) (w : World)
    (hwf : ∀ p ∈ w.boxes, p.1 < w.next) :
    ∀ p ∈ ((TVMRetValue.Clear r w).2).boxes, p.1 < w.next := by
  unfold TVMRetValue.Clear
  cases hr : r.type_code_ <;>
    (simp only [hr, World.free, reduceIte]
     first
       | exact hwf
       | exact fun p hp => hwf p (List.mem_of_mem_filter hp))

/-- Clearing releases exactly the current box when the discriminant is a
complex tag, and nothing otherwise. -/
theorem clear_released (r : TVMRetValue) (w : World) :
    ((TVMRetValue.Clear r w).2).released =
      w.released ++
        (if r.type_code_ ∈ [kStr, kFuncHandle, kModuleHandle, kNodeHandle]
         then [r.value_.v_handle] else []) := by
  unfold TVMRetValue.Clear
  cases hr : r.type_code_ <;> simp [hr, World.free]

/-- C3 (counterexample): the stored value `-2^31 - 1` lies outside the
32-bit range `[INT_MIN, INT_MAX]`, yet `operator int` does not fail — it
passes the (upper-bound-only) check and returns the truncated value
`2^31 - 1`, not the stored value. -/
theorem toCInt_below_intmin_not_fatal :
    TVMPODValue_.toCInt ⟨{ v_int64 := -2147483649 }, kInt⟩ = some 2147483647 := by
  decide

/-- C3 (amended): converting an `Int`-tagged 64-bit value to the 32-bit
int target fails if and only if the value exceeds `INT_MAX` (only the
upper bound is checked); whenever the value also lies at or above
`INT_MIN` the conversion returns exactly the stored value — in
particular 300 converts to 300. -/
theorem toCInt_checks_only_upper_bound (v : Int) :
    (TVMPODValue_.toCInt ⟨{ v_int64 := v }, kInt⟩ = none ↔ 2147483647 < v) ∧
    (-2147483648 ≤ v → v ≤ 2147483647 →
      TVMPODValue_.toCInt ⟨{ v_int64 := v }, kInt⟩ = some v) := by
  unfold TVMPODValue_.toCInt wrap32
  constructor
  · by_cases h : v ≤ 2147483647
    · simp [h]
    · simp [h]
      omega
  · intro h1 h2
    simp only [reduceCtorEq, reduceIte, if_pos h2, Option.some.injEq]
    omega

theorem toCInt_checks_only_upper_bound_witness :
    TVMPODValue_.toCInt ⟨{ v_int64 := 300 }, kInt⟩ = some 300 ∧
    (-2147483648 : Int) ≤ 300 ∧ (300 : Int) ≤ 2147483647 :=
  ⟨(toCInt_checks_only_upper_bound 300).2 (by decide) (by decide),
   by decide, by decide⟩

/-- C10: converting an `Int`-tagged value to `uint64_t` performs only
the tag check: for every storable 64-bit value, including negative ones,
it succeeds and returns the value reduced modulo `2^64`, and a negative
stored value yields a result greater than `INT64_MAX`. -/
theorem toCUInt64_no_sign_check (v : Int)
    (hlo : -9223372036854775808 ≤ v) (hhi : v < 9223372036854775808) :
    TVMPODValue_.toCUInt64 ⟨{ v_int64 := v }, kInt⟩ =
      some (v % 18446744073709551616) ∧
    (v < 0 → 9223372036854775807 < v % 18446744073709551616) := by
  refine ⟨by simp [TVMPODValue_.toCUInt64], fun hv => ?_⟩
  omega

theorem toCUInt64_no_sign_check_witness :
    TVMPODValue_.toCUInt64 ⟨{ v_int64 := -1 }, kInt⟩ =
      some 18446744073709551615 ∧
    (9223372036854775807 : Int) < 18446744073709551615 :=
  ⟨((toCUInt64_no_sign_check (-1) (by decide) (by decide)).1).trans (by decide),
   by decide⟩

/-- C7: indexing an argument list with `i ≥ num_args` is a fatal check
failure, and indexing with `0 ≤ i < num_args` returns a view over
exactly `values[i]` with tag `type_codes[i]`; on a two-element list,
index 2 fails and index 1 succeeds matching `values[1]`. -/
theorem args_bounds_check (a : TVMArgs) (i : Int) :
    (a.num_args ≤ i → TVMArgs.getArg a i = none) ∧
    (0 ≤ i → i < a.num_args →
      TVMArgs.getArg a i = some ⟨a.values i, a.type_codes i⟩) ∧
    (a.num_args = 2 →
      TVMArgs.getArg a 2 = none ∧
      TVMArgs.getArg a 1 = some ⟨a.values 1, a.type_codes 1⟩) := by
  unfold TVMArgs.getArg
  refine ⟨fun h => ?_, fun h0 h1 => ?_, fun h2 => ⟨?_, ?_⟩⟩
  · rw [if_neg (by omega)]
  · rw [if_pos h1]
  · rw [if_neg (by omega)]
  · rw [if_pos (by omega)]

theorem args_bounds_check_witness :
    TVMArgs.getArg twoIntArgs 2 = none ∧
    TVMArgs.getArg twoIntArgs 1 =
      some ⟨twoIntArgs.values 1, twoIntArgs.type_codes 1⟩ :=
  (args_bounds_check twoIntArgs 0).2.2 rfl

/-- C9: the bounds check is one-sided — for any negative index (and any
nonnegative count) `operator[]` passes the `i < num_args` check and
returns a view built from the out-of-bounds reads `values[i]`,
`type_codes[i]`; nothing rejects `i < 0`. -/
theorem args_negative_index_not_rejected (a : TVMArgs) (i : Int)
    (hneg : i < 0) (hcount : 0 ≤ a.num_args) :
    TVMArgs.getArg a i = some ⟨a.values i, a.type_codes i⟩ := by
  unfold TVMArgs.getArg
  rw [if_pos (by omega)]

theorem args_negative_index_not_rejected_witness :
    TVMArgs.getArg twoIntArgs (-1) =
      some ⟨twoIntArgs.values (-1), twoIntArgs.type_codes (-1)⟩ ∧
    (twoIntArgs.values (-1)).v_int64 = -1 :=
  ⟨args_negative_index_not_rejected twoIntArgs (-1) (by decide) (by decide),
   rfl⟩

/-- C4 (counterexample): the claimed domain contains descriptors that do
not round-trip: formatting `{UInt, 32, 1}` is a fatal error
(`TypeCode2Str` has no `kUInt` case), and `{Handle, 64, 4}` formats to
plain "handle" (the printer returns before any lane suffix), which
parses back to `{Handle, 64, 1}`, a different descriptor. -/
theorem roundTrip_fails_on_uint_and_handle_lanes :
    TVMType2String ⟨kUInt, 32, 1⟩ = none ∧
    roundTrip ⟨kHandle, 64, 4⟩ = some ⟨kHandle, 64, 1⟩ ∧
    (⟨kHandle, 64, 1⟩ : TVMType) ≠ ⟨kHandle, 64, 4⟩ := by
  decide

/-- C4 (amended): `Parse(Format(d)) = d` holds for every descriptor with
code in `{Int, Float}`, bits in `{1,8,16,32,64}` and lanes in `{1,4,8}`,
and for the scalar 64-bit handle `{Handle, 64, 1}`; it cannot hold for
`UInt` descriptors (formatting them is a fatal error) nor for `Handle`
descriptors with lanes 4 or 8 (formatting drops the lane count).  In
particular `{Float, 32, 4}` formats to "float32x4" and parses back to
itself. -/
theorem roundTrip_on_domain (t : TVMType) (h : t ∈ roundTripDomain) :
    roundTrip t = some t := by
  have hall : ∀ x ∈ roundTripDomain, roundTrip x = some x := by decide
  exact hall t h

theorem roundTrip_on_domain_witness :
    roundTrip ⟨kFloat, 32, 4⟩ = some ⟨kFloat, 32, 4⟩ ∧
    TVMType2String ⟨kFloat, 32, 4⟩ = some "float32x4".toList :=
  ⟨roundTrip_on_domain ⟨kFloat, 32, 4⟩ (by decide), by decide⟩

/-- C5: `String2TVMType` classifies its input by its anchored prefix — a
string beginning with "uint" parses to code `kUInt` (never `kInt`, since
its first three characters are not "int"), "int" to `kInt`, "float" to
`kFloat`, "handle" to `kHandle`; a string matching none of the four
prefixes is a fatal parse error; and a bare prefix with no numeric
suffix keeps the defaults `bits = 32`, `lanes = 1`, except that "handle"
defaults the bits to 64. -/
theorem string2TVMType_prefix_classification (s rest : List Char) :
    (String2TVMType ('u' :: 'i' :: 'n' :: 't' :: rest)).map TVMType.code
      = some kUInt ∧
    (String2TVMType ('i' :: 'n' :: 't' :: rest)).map TVMType.code
      = some kInt ∧
    (String2TVMType ('f' :: 'l' :: 'o' :: 'a' :: 't' :: rest)).map TVMType.code
      = some kFloat ∧
    (String2TVMType ('h' :: 'a' :: 'n' :: 'd' :: 'l' :: 'e' :: rest)).map
        TVMType.code = some kHandle ∧
    (s.take 3 ≠ "int".toList → s.take 4 ≠ "uint".toList →
     s.take 5 ≠ "float".toList → s.take 6 ≠ "handle".toList →
     String2TVMType s = none) ∧
    String2TVMType "uint".toList = some ⟨kUInt, 32, 1⟩ ∧
    String2TVMType "int".toList = some ⟨kInt, 32, 1⟩ ∧
    String2TVMType "float".toList = some ⟨kFloat, 32, 1⟩ ∧
    String2TVMType "handle".toList = some ⟨kHandle, 64, 1⟩ := by
  refine ⟨?_, ?_, ?_, ?_, fun h3 h4 h5 h6 => ?_, by decide, by decide,
    by decide, by decide⟩
  · simp [String2TVMType, List.take]
  · simp [String2TVMType, List.take]
  · simp [String2TVMType, List.take]
  · simp [String2TVMType, List.take]
  · unfold String2TVMType
    rw [if_neg h3, if_neg h4, if_neg h5, if_neg h6]

theorem string2TVMType_prefix_classification_witness :
    (String2TVMType ('u' :: 'i' :: 'n' :: 't' :: ('8' :: []))).map
        TVMType.code = some kUInt ∧
    String2TVMType "bogus".toList = none ∧
    String2TVMType "handle".toList = some ⟨kHandle, 64, 1⟩ := by
  have h := string2TVMType_prefix_classification "bogus".toList ('8' :: [])
  exact ⟨h.1, h.2.2.2.2.1 (by decide) (by decide) (by decide) (by decide),
    h.2.2.2.2.2.2.2.2⟩

/-- C6: `MoveToCHost` is fatal exactly on a `kStr` slot; on any other
slot it hands the union payload and the tag to the raw ABI outputs and
resets the slot to `kNull`, after which a `Clear` (and hence the
destructor) releases nothing and leaves the world unchanged, and a
second transfer hands out tag `kNull`. -/
theorem moveToCHost_transfer (r : TVMRetValue) (w : World) :
    (r.type_code_ = kStr → TVMRetValue.MoveToCHost r = none) ∧
    (r.type_code_ ≠ kStr →
      TVMRetValue.MoveToCHost r =
        some (r.value_, r.type_code_, { r with type_code_ := kNull }) ∧
      TVMRetValue.Clear { r with type_code_ := kNull } w =
        ({ r with type_code_ := kNull }, w) ∧
      TVMRetValue.MoveToCHost { r with type_code_ := kNull } =
        some (r.value_, kNull, { r with type_code_ := kNull })) := by
  refine ⟨fun h => by simp [TVMRetValue.MoveToCHost, h], fun h => ⟨?_, ?_, ?_⟩⟩
  · simp [TVMRetValue.MoveToCHost, h]
  · simp [TVMRetValue.Clear]
  · simp [TVMRetValue.MoveToCHost]

theorem moveToCHost_transfer_witness :
    TVMRetValue.MoveToCHost intSlot5 =
      some (intSlot5.value_, kInt, { intSlot5 with type_code_ := kNull }) ∧
    TVMRetValue.Clear { intSlot5 with type_code_ := kNull } {} =
      ({ intSlot5 with type_code_ := kNull }, {}) ∧
    TVMRetValue.MoveToCHost { intSlot5 with type_code_ := kNull } =
      some (intSlot5.value_, kNull, { intSlot5 with type_code_ := kNull }) :=
  (moveToCHost_transfer intSlot5 {}).2 (by decide)

/-- C8: assigning a complex payload through `SwitchToClass` with the tag
already current leaves the slot (and in particular its box pointer)
unchanged, allocates nothing, releases nothing, and overwrites the boxed
payload in place; with a differing tag it retags the slot, allocates a
fresh box holding the payload at the next free address, and releases the
old box exactly when the old discriminant was a heap-owning one. -/
theorem switchToClass_reuse_or_realloc (r : TVMRetValue) (w : World)
    (tc : TypeCode) (v : BoxContent)
    (_hc : tc = kStr ∨ tc = kFuncHandle ∨ tc = kModuleHandle)
    (hwf : ∀ p ∈ w.boxes, p.1 < w.next) :
    (r.type_code_ = tc →
      (TVMRetValue.SwitchToClass r w tc v).1 = r ∧
      ((TVMRetValue.SwitchToClass r w tc v).2).released = w.released ∧
      ((TVMRetValue.SwitchToClass r w tc v).2).next = w.next ∧
      ((World.lookupBox w r.value_.v_handle).isSome = true →
        World.lookupBox (TVMRetValue.SwitchToClass r w tc v).2
          r.value_.v_handle = some v)) ∧
    (r.type_code_ ≠ tc →
      (TVMRetValue.SwitchToClass r w tc v).1.type_code_ = tc ∧
      (TVMRetValue.SwitchToClass r w tc v).1.value_.v_handle = w.next ∧
      World.lookupBox (TVMRetValue.SwitchToClass r w tc v).2 w.next = some v ∧
      ((TVMRetValue.SwitchToClass r w tc v).2).released =
        w.released ++
          (if r.type_code_ ∈ [kStr, kFuncHandle, kModuleHandle, kNodeHandle]
           then [r.value_.v_handle] else [])) := by
  constructor
  · intro hcur
    unfold TVMRetValue.SwitchToClass
    rw [if_neg (by simp [hcur])]
    exact ⟨rfl, rfl, rfl, fun hbox => World.lookupBox_store_self w _ v hbox⟩
  · intro hne
    unfold TVMRetValue.SwitchToClass
    rw [if_pos (by simpa using hne)]
    refine ⟨rfl, ?_, ?_, ?_⟩
    · show (World.alloc (TVMRetValue.Clear r w).2 v).1 = w.next
      unfold World.alloc
      exact clear_next r w
    · have hfresh := World.lookupBox_alloc_fresh (TVMRetValue.Clear r w).2 v
        (by
          intro p hp
          have := clear_wf r w hwf p hp
          rw [clear_next r w]
          exact this)
      have hn : (World.alloc (TVMRetValue.Clear r w).2 v).1 = w.next := by
        show ((TVMRetValue.Clear r w).2).next = w.next
        exact clear_next r w
      rw [hn] at hfresh
      exact hfresh
    · show ((World.alloc (TVMRetValue.Clear r w).2 v).2).released = _
      unfold World.alloc
      exact clear_released r w

theorem switchToClass_reuse_or_realloc_witness :
    (TVMRetValue.SwitchToClass strSlot0 strWorld0 kStr (.str "b")).1
      = strSlot0 ∧
    ((TVMRetValue.SwitchToClass strSlot0 strWorld0 kStr (.str "b")).2).released
      = strWorld0.released ∧
    ((TVMRetValue.SwitchToClass strSlot0 strWorld0 kStr (.str "b")).2).next
      = strWorld0.next ∧
    World.lookupBox (TVMRetValue.SwitchToClass strSlot0 strWorld0 kStr
      (.str "b")).2 0 = some (.str "b") := by
  have h := (switchToClass_reuse_or_realloc strSlot0 strWorld0 kStr (.str "b")
    (Or.inl rfl) (by decide)).1 rfl
  exact ⟨h.1, h.2.1, h.2.2.1, h.2.2.2 (by decide)⟩

/-- C1: the claim fails for move construction.  After building a slot, storing
the string "x" in it (heap box 0) and move-constructing a new slot from
it, the moved-from slot still carries discriminant `kStr` (the move
constructor never resets it to `kNull`), so destroying the moved-from
slot and then the destination releases box 0 twice.  Move assignment, in
contrast, does reset its source to `kNull`. -/
theorem moveCtor_leaves_source_owning :
    (TVMRetValue.moveCtor
        (TVMRetValue.assignString {} {} "x").1).2.type_code_ = kStr ∧
    (TVMRetValue.destruct
        (TVMRetValue.moveCtor (TVMRetValue.assignString {} {} "x").1).1
        (TVMRetValue.destruct
          (TVMRetValue.moveCtor (TVMRetValue.assignString {} {} "x").1).2
          (TVMRetValue.assignString {} {} "x").2)).released = [0, 0] ∧
    (TVMRetValue.moveAssign {} (TVMRetValue.assignString {} {} "x").1
        (TVMRetValue.assignString {} {} "x").2).2.1.type_code_ = kNull := by
  decide

/-- C2: the claim fails for `ModuleHandle` sources.  Copy-assigning a
`kModuleHandle` source (return slot or argument view) into a
`TVMRetValue` is a fatal tag mismatch: `Assign`'s `kModuleHandle` case
instantiates `SwitchToClass<PackedFunc>`, whose argument conversion
`operator PackedFunc()` checks the source tag against `kFuncHandle`.  A
`kFuncHandle` source, by contrast, succeeds and allocates a fresh box
(address 1, distinct from the source's box 0) holding a copy of the
boxed `PackedFunc`. -/
theorem assign_moduleHandle_fatal :
    TVMRetValue.Assign {} modWorld0 modSrc0 SrcKind.fromRetValue = none ∧
    TVMRetValue.Assign {} modWorld0 modSrc0 SrcKind.fromArgValue = none ∧
    (TVMRetValue.Assign {} funcWorld0 funcSrc0 SrcKind.fromRetValue).map
        (fun p => (p.1.type_code_, p.1.value_.v_handle,
                   World.lookupBox p.2 p.1.value_.v_handle,
                   World.lookupBox p.2 funcSrc0.value_.v_handle))
      = some (kFuncHandle, 1, some (.func 7), some (.func 7)) := by
  decide

end TVM
